import Mathlib

/-!
Verification of the streaming response reconstruction and tool-invocation
orchestration loop of the MCP chat client (src/client/client.py,
MCPClient.process_query and MCPClient.chat_loop).

The embedding follows the source line by line:

* `Json` models Python JSON values (the result of json.loads); the claims
  are parametric in a parse function `parse : String → Option Json`
  standing for json.loads (returning `none` exactly when json.loads would
  raise JSONDecodeError).
* `StreamEvent` models the chunks of the Anthropic message stream: the
  three chunk types the loop inspects, plus `otherEvent` for every chunk
  type the loop falls through (message_start, message_delta, ...).
* `step` is the body of the `for chunk in response_stream` loop: its state
  is the triple (text_parts, current_tool_call, tool_calls) from the
  source plus a counter of the decode-error warnings printed, and
  `decodeStream` is the whole loop (a fold from the initial state).
* `assistantMessageContent` is the construction of
  assistant_message_content after the loop.
* `dispatchAll` is the `for tool_call in tool_calls` dispatch loop; the
  executor is a parameter standing for session.call_tool; `Except.error`
  stands for a raised exception, which aborts the loop at the failing call
  (calls already made are recorded in the returned invocation trace).
* `process_query` is MCPClient.process_query: the first model stream and
  the follow-up stream are inputs (the two values returned by the two
  messages.create calls); the returned `QueryOutcome` records the final
  message log, the call_tool invocations made, whether the second model
  call happened, the text printed from the second stream, and the
  exception (if any) that escaped — in Python it propagates to chat_loop,
  which prints it.
* `chat_loop` is MCPClient.chat_loop on a list of input lines: it strips
  the line, breaks on a case-insensitive quit, otherwise runs
  process_query and continues regardless of a propagated error (the
  `except Exception` handler prints the error and loops).
-/

/-- JSON values, the codomain of json.loads. -/
inductive Json where
  | null
  | bool (b : Bool)
  | num (n : Int)
  | str (s : String)
  | arr (xs : List Json)
  | obj (fields : List (String × Json))

/-- A materialized tool call: the dict appended to tool_calls after its
input string has been parsed. -/
structure ToolCall where
  id : String
  name : String
  input : Json

/-- The open slot current_tool_call while its input is still the
accumulating string buffer. -/
structure OpenToolCall where
  id : String
  name : String
  inputBuf : String
deriving DecidableEq

/-- A tool_result content block sent back to the model. The payload
returned by session.call_tool is opaque to the core; it is modelled as a
string. -/
structure ToolResultBlock where
  tool_use_id : String
  content : String

/-- A content block of a conversation message. -/
inductive ContentBlock where
  | text (text : String)
  | toolUse (tc : ToolCall)
  | toolResult (tr : ToolResultBlock)

/-- Message content: the user query is a plain string, later messages
carry a list of content blocks. -/
inductive MessageContent where
  | str (s : String)
  | blocks (bs : List ContentBlock)

/-- One entry of the messages list. -/
structure Message where
  role : String
  content : MessageContent

/-- The content_block carried by a content_block_start chunk. Only the
tool_use case is inspected by the source; text and any other block type
fall through. -/
inductive StartBlock where
  | toolUse (id : String) (name : String)
  | text
  | other
deriving DecidableEq

/-- The delta carried by a content_block_delta chunk. -/
inductive Delta where
  | text (t : String)
  | inputJson (j : String)
deriving DecidableEq

/-- A chunk of the model stream. `otherEvent` covers every chunk type the
loop does not inspect (message_start, message_delta, message_stop, ...). -/
inductive StreamEvent where
  | contentBlockStart (b : StartBlock)
  | contentBlockDelta (d : Delta)
  | contentBlockStop
  | otherEvent
deriving DecidableEq

/-- The text fragment of a chunk, when it is a text delta. -/
def textFragOf : StreamEvent → Option String
  | .contentBlockDelta (.text t) => some t
  | _ => none

/-- The partial-JSON fragment of a chunk, when it is an input_json
delta. -/
def jsonFragOf : StreamEvent → Option String
  | .contentBlockDelta (.inputJson j) => some j
  | _ => none

/-- Whether a chunk is a content_block_start for a tool_use block. -/
def isToolUseStart : StreamEvent → Bool
  | .contentBlockStart (.toolUse _ _) => true
  | _ => false

/-- Whether a chunk is a content_block_stop. -/
def isStop : StreamEvent → Bool
  | .contentBlockStop => true
  | _ => false

/-- Whether a chunk is a text delta. -/
def isTextDelta : StreamEvent → Bool
  | .contentBlockDelta (.text _) => true
  | _ => false

/-- Concatenation of a list of strings with no delimiter, as in
a str.join with the empty separator. -/
def joinAll : List String → String
  | [] => ""
  | s :: rest => s ++ joinAll rest

/-- The loop state of the stream-parsing for loop in process_query:
text_parts, current_tool_call, tool_calls, and a count of the
"Could not decode JSON" warnings printed. -/
structure DecodeState where
  textParts : List String
  current : Option OpenToolCall
  toolCalls : List ToolCall
  warnings : Nat

/-- The state before the first chunk. -/
def initDecodeState : DecodeState :=
  { textParts := [], current := none, toolCalls := [], warnings := 0 }

/-- The body of the `for chunk in response_stream` loop, one chunk at a
time. `parse` stands for json.loads: `none` means JSONDecodeError. -/
def step (parse : String → Option Json) (s : DecodeState) : StreamEvent → DecodeState
  | .contentBlockStart b =>
    match b with
    | .toolUse id name => { s with current := some { id := id, name := name, inputBuf := "" } }
    | _ => s
  | .contentBlockDelta (.text t) => { s with textParts := s.textParts ++ [t] }
  | .contentBlockDelta (.inputJson j) =>
    match s.current with
    | some c => { s with current := some { c with inputBuf := c.inputBuf ++ j } }
    | none => s
  | .contentBlockStop =>
    match s.current with
    | some c =>
      match parse c.inputBuf with
      | some v =>
        { s with toolCalls := s.toolCalls ++ [{ id := c.id, name := c.name, input := v }],
                 current := none }
      | none => { s with warnings := s.warnings + 1, current := none }
    | none => s
  | .otherEvent => s

/-- The whole stream-parsing loop: fold `step` over the chunks in arrival
order, starting from the initial state. -/
def decodeStream (parse : String → Option Json) (events : List StreamEvent) : DecodeState :=
  events.foldl (step parse) initDecodeState

/-- Construction of assistant_message_content after the loop: the joined
text (only when text_parts is non-empty) followed by the tool_use
blocks. -/
def assistantMessageContent (d : DecodeState) : List ContentBlock :=
  (if d.textParts.isEmpty then [] else [ContentBlock.text (joinAll d.textParts)])
    ++ d.toolCalls.map ContentBlock.toolUse

/-- The dispatch loop `for tool_call in tool_calls`: call the executor on
each tool call in order. Returns the invocation trace (name, input of each
call_tool actually performed), the collected tool_result blocks, and the
exception that aborted the loop, if any. An `Except.error` from the
executor models session.call_tool raising: the loop stops there and the
error propagates. -/
def dispatchAll (executor : String → Json → Except String String) :
    List ToolCall → List (String × Json) × List ToolResultBlock × Option String
  | [] => ([], [], none)
  | tc :: rest =>
    match executor tc.name tc.input with
    | .error e => ([(tc.name, tc.input)], [], some e)
    | .ok payload =>
      ((tc.name, tc.input) :: (dispatchAll executor rest).1,
       { tool_use_id := tc.id, content := payload } :: (dispatchAll executor rest).2.1,
       (dispatchAll executor rest).2.2)

/-- The loop over the second model stream: it prints exactly the text
deltas, in order, and inspects nothing else. -/
def secondStreamText (events : List StreamEvent) : String :=
  joinAll (events.filterMap textFragOf)

/-- Everything observable about one process_query call: the final
messages list, the call_tool invocations made in order, whether the
second messages.create call happened, the text printed from the second
stream, and the exception that escaped process_query (printed by
chat_loop), if any. -/
structure QueryOutcome where
  log : List Message
  invocations : List (String × Json)
  secondCalled : Bool
  secondPrinted : String
  err : Option String

/-- MCPClient.process_query. The two streams are the values produced by
the two messages.create calls (the model API is an external collaborator,
so its responses are inputs); `executor` is session.call_tool and `parse`
is json.loads. -/
def process_query (query : String) (stream1 stream2 : List StreamEvent)
    (executor : String → Json → Except String String)
    (parse : String → Option Json) : QueryOutcome :=
  let messages : List Message := [{ role := "user", content := .str query }]
  let d := decodeStream parse stream1
  let content := assistantMessageContent d
  if content.isEmpty then
    { log := messages, invocations := [], secondCalled := false, secondPrinted := "",
      err := none }
  else
    let messages := messages ++ [{ role := "assistant", content := .blocks content }]
    if d.toolCalls.isEmpty then
      { log := messages, invocations := [], secondCalled := false, secondPrinted := "",
        err := none }
    else
      match dispatchAll executor d.toolCalls with
      | (inv, _, some e) =>
        { log := messages, invocations := inv, secondCalled := false, secondPrinted := "",
          err := some e }
      | (inv, results, none) =>
        let messages := messages ++
          [{ role := "user", content := .blocks (results.map ContentBlock.toolResult) }]
        { log := messages, invocations := inv, secondCalled := true,
          secondPrinted := secondStreamText stream2, err := none }

/-- Whether a character is one Python str.strip removes by default. -/
def isSpaceChar (c : Char) : Bool :=
  c = ' ' || c = '\t' || c = '\n' || c = '\r' || c = '\x0b' || c = '\x0c'

/-- Python str.strip: drop leading and trailing whitespace. -/
def pyStrip (s : String) : String :=
  String.mk (((s.data.dropWhile isSpaceChar).reverse.dropWhile isSpaceChar).reverse)

/-- Python str.lower on the ASCII range: map capital letters to their
lowercase counterparts. -/
def pyLower (s : String) : String :=
  String.mk (s.data.map fun c =>
    if 'A' ≤ c && c ≤ 'Z' then Char.ofNat (c.toNat + 32) else c)

/-- MCPClient.chat_loop on a list of input lines: strip each line, break
on a case-insensitive quit, otherwise run process_query on it; an error
escaping process_query is caught, printed and the loop continues with the
next line. `streams` assigns to each query the two model streams its
process_query call receives. -/
def chat_loop (streams : String → List StreamEvent × List StreamEvent)
    (executor : String → Json → Except String String)
    (parse : String → Option Json) : List String → List QueryOutcome
  | [] => []
  | line :: rest =>
    let query := pyStrip line
    if pyLower query = "quit" then []
    else
      process_query query (streams query).1 (streams query).2 executor parse
        :: chat_loop streams executor parse rest

/-- A sample parse function used to instantiate the parametric json.loads
in witnesses: it recognizes the two documents the witness streams use. -/
def sampleParse : String → Option Json
  | "1" => some (Json.num 1)
  | "2" => some (Json.num 2)
  | _ => none

/-- A sample executor that always succeeds, echoing the tool name. -/
def sampleExecutor : String → Json → Except String String :=
  fun name _ => Except.ok name

/-- A sample executor that always raises. -/
def failingExecutor : String → Json → Except String String :=
  fun _ _ => Except.error "remote error"

/-! ### Lemmas about the stream-parsing loop -/

/-- One step never removes text: it appends exactly the text fragment of
the chunk (empty for every other chunk kind). -/
theorem step_textParts (parse : String → Option Json) (s : DecodeState) (e : StreamEvent) :
    (step parse s e).textParts = s.textParts ++ (textFragOf e).toList := by
  obtain ⟨tp, cur, tcs, w⟩ := s
  cases e with
  | contentBlockStart b => cases b <;> simp [step, textFragOf]
  | contentBlockDelta d =>
    cases d with
    | text t => simp [step, textFragOf]
    | inputJson j => cases cur <;> simp [step, textFragOf]
  | contentBlockStop =>
    cases cur with
    | none => simp [step, textFragOf]
    | some c => cases h : parse c.inputBuf <;> simp [step, textFragOf, h]
  | otherEvent => simp [step, textFragOf]

/-- Over any chunk list, text_parts grows by exactly the text fragments in
arrival order. -/
theorem foldl_textParts (parse : String → Option Json) (evs : List StreamEvent) :
    ∀ s : DecodeState,
      (evs.foldl (step parse) s).textParts = s.textParts ++ evs.filterMap textFragOf := by
  induction evs with
  | nil => intro s; simp
  | cons e rest ih =>
    intro s
    rw [List.foldl_cons, ih, step_textParts, List.filterMap_cons]
    cases h : textFragOf e <;> simp

/-- While no chunk opens a tool_use block and no slot is open, the loop
only accumulates text: the slot stays closed, tool_calls and the warning
count are untouched. -/
theorem run_noToolStart (parse : String → Option Json) (evs : List StreamEvent) :
    ∀ s : DecodeState, s.current = none →
      (∀ e ∈ evs, isToolUseStart e = false) →
      evs.foldl (step parse) s =
        { s with textParts := s.textParts ++ evs.filterMap textFragOf } := by
  induction evs with
  | nil => intro s _ _; simp
  | cons e rest ih =>
    intro s hs h
    have he : isToolUseStart e = false := h e (List.mem_cons_self e rest)
    have hrest : ∀ x ∈ rest, isToolUseStart x = false :=
      fun x hx => h x (List.mem_cons_of_mem e hx)
    obtain ⟨tp, cur, tcs, w⟩ := s
    simp only [DecodeState.current] at hs
    subst hs
    have hstep : step parse ⟨tp, none, tcs, w⟩ e =
        ⟨tp ++ (textFragOf e).toList, none, tcs, w⟩ := by
      cases e with
      | contentBlockStart b =>
        cases b with
        | toolUse id name => simp [isToolUseStart] at he
        | text => simp [step, textFragOf]
        | other => simp [step, textFragOf]
      | contentBlockDelta d => cases d <;> simp [step, textFragOf]
      | contentBlockStop => simp [step, textFragOf]
      | otherEvent => simp [step, textFragOf]
    rw [List.foldl_cons, hstep, ih _ rfl hrest, List.filterMap_cons]
    cases h2 : textFragOf e <;> simp

/-- While a slot is open and no chunk closes it or opens another, the loop
appends every partial-JSON fragment to the open buffer in order (and the
text fragments to text_parts); tool_calls and the warning count are
untouched. -/
theorem run_openSlot (parse : String → Option Json) (evs : List StreamEvent) :
    ∀ (s : DecodeState) (c : OpenToolCall), s.current = some c →
      (∀ e ∈ evs, isToolUseStart e = false ∧ isStop e = false) →
      evs.foldl (step parse) s =
        { s with textParts := s.textParts ++ evs.filterMap textFragOf,
                 current := some { id := c.id, name := c.name,
                                   inputBuf := c.inputBuf ++ joinAll (evs.filterMap jsonFragOf) } } := by
  induction evs with
  | nil =>
    intro s c hs _
    obtain ⟨tp, cur, tcs, w⟩ := s
    simp only [DecodeState.current] at hs
    subst hs
    simp [joinAll, String.append_empty]
  | cons e rest ih =>
    intro s c hs h
    have he := h e (List.mem_cons_self e rest)
    have hrest : ∀ x ∈ rest, isToolUseStart x = false ∧ isStop x = false :=
      fun x hx => h x (List.mem_cons_of_mem e hx)
    obtain ⟨tp, cur, tcs, w⟩ := s
    simp only [DecodeState.current] at hs
    subst hs
    cases e with
    | contentBlockStart b =>
      cases b with
      | toolUse id name => simp [isToolUseStart] at he
      | text =>
        rw [List.foldl_cons]
        have : step parse ⟨tp, some c, tcs, w⟩ (.contentBlockStart .text) =
            ⟨tp, some c, tcs, w⟩ := by simp [step]
        rw [this, ih _ c rfl hrest]
        simp [textFragOf, jsonFragOf]
      | other =>
        rw [List.foldl_cons]
        have : step parse ⟨tp, some c, tcs, w⟩ (.contentBlockStart .other) =
            ⟨tp, some c, tcs, w⟩ := by simp [step]
        rw [this, ih _ c rfl hrest]
        simp [textFragOf, jsonFragOf]
    | contentBlockDelta d =>
      cases d with
      | text t =>
        rw [List.foldl_cons]
        have : step parse ⟨tp, some c, tcs, w⟩ (.contentBlockDelta (.text t)) =
            ⟨tp ++ [t], some c, tcs, w⟩ := by simp [step]
        rw [this, ih _ c rfl hrest]
        simp [textFragOf, jsonFragOf]
      | inputJson j =>
        rw [List.foldl_cons]
        have : step parse ⟨tp, some c, tcs, w⟩ (.contentBlockDelta (.inputJson j)) =
            ⟨tp, some { c with inputBuf := c.inputBuf ++ j }, tcs, w⟩ := by simp [step]
        rw [this, ih _ _ rfl hrest]
        simp [textFragOf, jsonFragOf, joinAll, String.append_assoc]
    | contentBlockStop => simp [isStop] at he
    | otherEvent =>
      rw [List.foldl_cons]
      have : step parse ⟨tp, some c, tcs, w⟩ .otherEvent = ⟨tp, some c, tcs, w⟩ := by
        simp [step]
      rw [this, ih _ c rfl hrest]
      simp [textFragOf, jsonFragOf]

/-- One step from an arbitrary state equals the step from the state with
empty accumulators, with the old accumulators prepended: the step only
appends to text_parts and tool_calls and only adds to the warning count,
and the slot transition depends only on the slot. -/
theorem step_shift (parse : String → Option Json) (e : StreamEvent)
    (tp : List String) (cur : Option OpenToolCall) (tcs : List ToolCall) (w : Nat) :
    step parse ⟨tp, cur, tcs, w⟩ e =
      { textParts := tp ++ (step parse ⟨[], cur, [], 0⟩ e).textParts,
        current := (step parse ⟨[], cur, [], 0⟩ e).current,
        toolCalls := tcs ++ (step parse ⟨[], cur, [], 0⟩ e).toolCalls,
        warnings := w + (step parse ⟨[], cur, [], 0⟩ e).warnings } := by
  cases e with
  | contentBlockStart b => cases b <;> simp [step]
  | contentBlockDelta d =>
    cases d with
    | text t => simp [step]
    | inputJson j => cases cur <;> simp [step]
  | contentBlockStop =>
    cases cur with
    | none => simp [step]
    | some c => cases h : parse c.inputBuf <;> simp [step, h]
  | otherEvent => simp [step]

/-- The whole loop from an arbitrary state equals the loop from the state
with empty accumulators, with the old accumulators prepended. -/
theorem foldl_shift (parse : String → Option Json) (evs : List StreamEvent) :
    ∀ (tp : List String) (cur : Option OpenToolCall) (tcs : List ToolCall) (w : Nat),
      evs.foldl (step parse) ⟨tp, cur, tcs, w⟩ =
        { textParts := tp ++ (evs.foldl (step parse) ⟨[], cur, [], 0⟩).textParts,
          current := (evs.foldl (step parse) ⟨[], cur, [], 0⟩).current,
          toolCalls := tcs ++ (evs.foldl (step parse) ⟨[], cur, [], 0⟩).toolCalls,
          warnings := w + (evs.foldl (step parse) ⟨[], cur, [], 0⟩).warnings } := by
  induction evs with
  | nil => intro tp cur tcs w; simp
  | cons e rest ih =>
    intro tp cur tcs w
    rw [List.foldl_cons, List.foldl_cons, step_shift]
    rcases hz : step parse ⟨[], cur, [], 0⟩ e with ⟨a, cur1, b, c⟩
    rw [ih, ih a cur1 b c]
    simp [List.append_assoc, Nat.add_assoc]

/-- The dispatch loop preserves the order of the tool calls: when every
call succeeds, the tool_result list carries the tool_use ids in exactly
the order of the dispatched tool calls. -/
theorem dispatchAll_order (executor : String → Json → Except String String) :
    ∀ (tcs : List ToolCall) (inv : List (String × Json)) (rs : List ToolResultBlock),
      dispatchAll executor tcs = (inv, rs, none) →
      rs.map ToolResultBlock.tool_use_id = tcs.map ToolCall.id := by
  intro tcs
  induction tcs with
  | nil =>
    intro inv rs h
    unfold dispatchAll at h
    injection h with h1 h23
    injection h23 with h2 h3
    subst h2
    simp
  | cons tc rest ih =>
    intro inv rs h
    unfold dispatchAll at h
    cases hx : executor tc.name tc.input with
    | error e =>
      rw [hx] at h
      injection h with h1 h23
      injection h23 with h2 h3
      exact Option.noConfusion h3
    | ok payload =>
      rw [hx] at h
      injection h with h1 h23
      injection h23 with h2 h3
      subst h2
      simp only [List.map_cons, List.cons.injEq]
      refine ⟨by simp, ih (dispatchAll executor rest).1 (dispatchAll executor rest).2.1 ?_⟩
      have hr : dispatchAll executor rest =
          ((dispatchAll executor rest).1, (dispatchAll executor rest).2.1,
           (dispatchAll executor rest).2.2) := rfl
      rw [hr, h3]

/-- The call_tool invocations a process_query call makes are exactly those
of the dispatch loop over the decoded tool calls of the first stream, and
none when no tool call was decoded. -/
theorem process_query_invocations (q : String) (s1 s2 : List StreamEvent)
    (ex : String → Json → Except String String) (p : String → Option Json) :
    (process_query q s1 s2 ex p).invocations =
      (if (assistantMessageContent (decodeStream p s1)).isEmpty then []
       else if (decodeStream p s1).toolCalls.isEmpty then []
       else (dispatchAll ex (decodeStream p s1).toolCalls).1) := by
  cases h1 : (assistantMessageContent (decodeStream p s1)).isEmpty with
  | true => simp [process_query, h1]
  | false =>
    cases h2 : (decodeStream p s1).toolCalls.isEmpty with
    | true => simp [process_query, h1, h2]
    | false =>
      rcases h3 : dispatchAll ex (decodeStream p s1).toolCalls with ⟨inv, rs, oe⟩
      cases oe <;> simp [process_query, h1, h2, h3]

/-! ### Claims -/

/-- C1: for every stream containing exactly one tool-use block (a
content_block_start carrying id and name, its delta fragments, and the
closing content_block_stop) whose partial-JSON fragments concatenate, in
arrival order with no delimiter, to a document the parser accepts as
value v, the decoded tool-call sequence is exactly one ToolUse with input
v and the id and name of the start chunk. -/
theorem claim_C1_single_tool_use (parse : String → Option Json)
    (pre mids post : List StreamEvent) (id name : String) (v : Json)
    (hpre : ∀ e ∈ pre, isToolUseStart e = false)
    (hmids : ∀ e ∈ mids, isToolUseStart e = false ∧ isStop e = false)
    (hpost : ∀ e ∈ post, isToolUseStart e = false)
    (hparse : parse (joinAll (mids.filterMap jsonFragOf)) = some v) :
    (decodeStream parse
        (pre ++ StreamEvent.contentBlockStart (StartBlock.toolUse id name)
          :: (mids ++ StreamEvent.contentBlockStop :: post))).toolCalls
      = [{ id := id, name := name, input := v }] := by
  have hA : List.foldl (step parse) initDecodeState pre =
      ⟨List.filterMap textFragOf pre, none, [], 0⟩ := by
    rw [run_noToolStart parse pre initDecodeState rfl hpre]
    rfl
  have hB : step parse ⟨List.filterMap textFragOf pre, none, [], 0⟩
      (StreamEvent.contentBlockStart (StartBlock.toolUse id name)) =
      ⟨List.filterMap textFragOf pre, some ⟨id, name, ""⟩, [], 0⟩ := rfl
  have hC : List.foldl (step parse)
      (⟨List.filterMap textFragOf pre, some ⟨id, name, ""⟩, [], 0⟩ : DecodeState) mids =
      ⟨List.filterMap textFragOf pre ++ List.filterMap textFragOf mids,
       some ⟨id, name, joinAll (List.filterMap jsonFragOf mids)⟩, [], 0⟩ := by
    rw [run_openSlot parse mids _ ⟨id, name, ""⟩ rfl hmids]
    simp [String.empty_append]
  have hD : step parse
      (⟨List.filterMap textFragOf pre ++ List.filterMap textFragOf mids,
        some ⟨id, name, joinAll (List.filterMap jsonFragOf mids)⟩, [], 0⟩ : DecodeState)
      StreamEvent.contentBlockStop =
      ⟨List.filterMap textFragOf pre ++ List.filterMap textFragOf mids, none,
       [{ id := id, name := name, input := v }], 0⟩ := by
    simp [step, hparse]
  unfold decodeStream
  rw [List.foldl_append, hA, List.foldl_cons, hB, List.foldl_append, hC, List.foldl_cons, hD,
    run_noToolStart parse post _ rfl hpost]

/-- Witness for C1: a stream with one leading text delta and one tool-use
block whose single fragment is the document "1"; the decoder yields
exactly the one materialized ToolUse. -/
theorem claim_C1_single_tool_use_witness :
    (∀ e ∈ [StreamEvent.contentBlockDelta (Delta.text "hi")], isToolUseStart e = false)
    ∧ (∀ e ∈ [StreamEvent.contentBlockDelta (Delta.inputJson "1")],
        isToolUseStart e = false ∧ isStop e = false)
    ∧ (∀ e ∈ ([] : List StreamEvent), isToolUseStart e = false)
    ∧ sampleParse (joinAll ([StreamEvent.contentBlockDelta (Delta.inputJson "1")].filterMap jsonFragOf))
        = some (Json.num 1)
    ∧ (decodeStream sampleParse
        ([StreamEvent.contentBlockDelta (Delta.text "hi")]
          ++ StreamEvent.contentBlockStart (StartBlock.toolUse "toolu_01" "get_forecast")
          :: ([StreamEvent.contentBlockDelta (Delta.inputJson "1")]
              ++ StreamEvent.contentBlockStop :: []))).toolCalls
      = [{ id := "toolu_01", name := "get_forecast", input := Json.num 1 }] :=
  ⟨by decide, by decide, by decide, rfl,
   claim_C1_single_tool_use sampleParse
     [StreamEvent.contentBlockDelta (Delta.text "hi")]
     [StreamEvent.contentBlockDelta (Delta.inputJson "1")]
     [] "toolu_01" "get_forecast" (Json.num 1)
     (by decide) (by decide) (by decide) rfl⟩

/-- C2: a tool-use block whose concatenated fragments the parser rejects
is omitted from the decoded tool-call sequence: the decode of the whole
stream yields the same tool calls as the stream with the offending block
removed (so every block decoded before and after it still decodes and the
turn continues), one more warning is printed, and no exception escapes —
the decoder is a total function by construction. The prefix is arbitrary
subject only to the protocol invariant that no slot is still open when
the offending block starts: in particular it may contain any number of
earlier tool-use blocks, successfully decoded or themselves dropped. -/
theorem claim_C2_invalid_json_dropped (parse : String → Option Json)
    (pre mids post : List StreamEvent) (id name : String)
    (hpre : (decodeStream parse pre).current = none)
    (hmids : ∀ e ∈ mids, isToolUseStart e = false ∧ isStop e = false)
    (hparse : parse (joinAll (mids.filterMap jsonFragOf)) = none) :
    (decodeStream parse
        (pre ++ StreamEvent.contentBlockStart (StartBlock.toolUse id name)
          :: (mids ++ StreamEvent.contentBlockStop :: post))).toolCalls
      = (decodeStream parse (pre ++ post)).toolCalls
    ∧ (decodeStream parse
        (pre ++ StreamEvent.contentBlockStart (StartBlock.toolUse id name)
          :: (mids ++ StreamEvent.contentBlockStop :: post))).warnings
      = (decodeStream parse (pre ++ post)).warnings + 1 := by
  rcases hS : List.foldl (step parse) initDecodeState pre with ⟨TP, cur, TCS, W⟩
  unfold decodeStream at hpre
  rw [hS] at hpre
  simp at hpre
  subst hpre
  have hB : step parse ⟨TP, none, TCS, W⟩
      (StreamEvent.contentBlockStart (StartBlock.toolUse id name)) =
      ⟨TP, some ⟨id, name, ""⟩, TCS, W⟩ := rfl
  have hC : List.foldl (step parse)
      (⟨TP, some ⟨id, name, ""⟩, TCS, W⟩ : DecodeState) mids =
      ⟨TP ++ List.filterMap textFragOf mids,
       some ⟨id, name, joinAll (List.filterMap jsonFragOf mids)⟩, TCS, W⟩ := by
    rw [run_openSlot parse mids _ ⟨id, name, ""⟩ rfl hmids]
    simp [String.empty_append]
  have hD : step parse
      (⟨TP ++ List.filterMap textFragOf mids,
        some ⟨id, name, joinAll (List.filterMap jsonFragOf mids)⟩, TCS, W⟩ : DecodeState)
      StreamEvent.contentBlockStop =
      ⟨TP ++ List.filterMap textFragOf mids, none, TCS, W + 1⟩ := by
    simp [step, hparse]
  unfold decodeStream
  rw [List.foldl_append, List.foldl_append, hS, List.foldl_cons, hB, List.foldl_append, hC,
    List.foldl_cons, hD,
    foldl_shift parse post (TP ++ List.filterMap textFragOf mids) none TCS (W + 1),
    foldl_shift parse post TP none TCS W]
  refine ⟨rfl, by simp [Nat.add_assoc, Nat.add_comm, Nat.add_left_comm]⟩

/-- Witness for C2: the tool-use block with the unparsable fragment "x"
sits between a successfully decoded block in the prefix and another in
the tail; the offending block alone is dropped, both neighbours decode,
and the warning count rises by one. -/
theorem claim_C2_invalid_json_dropped_witness :
    (decodeStream sampleParse
        [StreamEvent.contentBlockStart (StartBlock.toolUse "first" "fA"),
         StreamEvent.contentBlockDelta (Delta.inputJson "1"),
         StreamEvent.contentBlockStop]).current = none
    ∧ (∀ e ∈ [StreamEvent.contentBlockDelta (Delta.inputJson "x")],
        isToolUseStart e = false ∧ isStop e = false)
    ∧ sampleParse (joinAll ([StreamEvent.contentBlockDelta (Delta.inputJson "x")].filterMap jsonFragOf))
        = none
    ∧ ((decodeStream sampleParse
          ([StreamEvent.contentBlockStart (StartBlock.toolUse "first" "fA"),
            StreamEvent.contentBlockDelta (Delta.inputJson "1"),
            StreamEvent.contentBlockStop]
            ++ StreamEvent.contentBlockStart (StartBlock.toolUse "bad" "broken")
              :: ([StreamEvent.contentBlockDelta (Delta.inputJson "x")]
                  ++ StreamEvent.contentBlockStop
                    :: [StreamEvent.contentBlockStart (StartBlock.toolUse "second" "fB"),
                        StreamEvent.contentBlockDelta (Delta.inputJson "2"),
                        StreamEvent.contentBlockStop]))).toolCalls
        = (decodeStream sampleParse
            ([StreamEvent.contentBlockStart (StartBlock.toolUse "first" "fA"),
              StreamEvent.contentBlockDelta (Delta.inputJson "1"),
              StreamEvent.contentBlockStop]
              ++ [StreamEvent.contentBlockStart (StartBlock.toolUse "second" "fB"),
                  StreamEvent.contentBlockDelta (Delta.inputJson "2"),
                  StreamEvent.contentBlockStop])).toolCalls
      ∧ (decodeStream sampleParse
          ([StreamEvent.contentBlockStart (StartBlock.toolUse "first" "fA"),
            StreamEvent.contentBlockDelta (Delta.inputJson "1"),
            StreamEvent.contentBlockStop]
            ++ StreamEvent.contentBlockStart (StartBlock.toolUse "bad" "broken")
              :: ([StreamEvent.contentBlockDelta (Delta.inputJson "x")]
                  ++ StreamEvent.contentBlockStop
                    :: [StreamEvent.contentBlockStart (StartBlock.toolUse "second" "fB"),
                        StreamEvent.contentBlockDelta (Delta.inputJson "2"),
                        StreamEvent.contentBlockStop]))).warnings
        = (decodeStream sampleParse
            ([StreamEvent.contentBlockStart (StartBlock.toolUse "first" "fA"),
              StreamEvent.contentBlockDelta (Delta.inputJson "1"),
              StreamEvent.contentBlockStop]
              ++ [StreamEvent.contentBlockStart (StartBlock.toolUse "second" "fB"),
                  StreamEvent.contentBlockDelta (Delta.inputJson "2"),
                  StreamEvent.contentBlockStop])).warnings + 1) :=
  ⟨rfl, by decide, rfl,
   claim_C2_invalid_json_dropped sampleParse
     [StreamEvent.contentBlockStart (StartBlock.toolUse "first" "fA"),
      StreamEvent.contentBlockDelta (Delta.inputJson "1"),
      StreamEvent.contentBlockStop]
     [StreamEvent.contentBlockDelta (Delta.inputJson "x")]
     [StreamEvent.contentBlockStart (StartBlock.toolUse "second" "fB"),
      StreamEvent.contentBlockDelta (Delta.inputJson "2"),
      StreamEvent.contentBlockStop]
     "bad" "broken" rfl (by decide) rfl⟩

/-- C3: for every stream containing no tool-use block — which includes
every stream whose deltas are all text deltas, with its text
content_block_start and content_block_stop chunks and any other chunk
kinds present — the decoded text is the concatenation of the text
fragments in arrival order, the decoded tool-call sequence is empty, and
process_query performs no call_tool invocation and no second model call:
the dispatcher is never reached. -/
theorem claim_C3_text_only (parse : String → Option Json) (q : String)
    (evs s2 : List StreamEvent) (ex : String → Json → Except String String)
    (h : ∀ e ∈ evs, isToolUseStart e = false) :
    joinAll ((decodeStream parse evs).textParts) = joinAll (evs.filterMap textFragOf)
    ∧ (decodeStream parse evs).toolCalls = []
    ∧ (process_query q evs s2 ex parse).invocations = []
    ∧ (process_query q evs s2 ex parse).secondCalled = false := by
  have hd : decodeStream parse evs = ⟨List.filterMap textFragOf evs, none, [], 0⟩ := by
    unfold decodeStream
    rw [run_noToolStart parse evs initDecodeState rfl h]
    rfl
  refine ⟨by rw [hd], by rw [hd], ?_, ?_⟩
  · simp only [process_query, hd]
    split <;> rfl
  · simp only [process_query, hd]
    split <;> rfl

/-- Witness for C3: the protocol-conforming text-only stream of
end-to-end scenario 1 — message_start, a text block carrying "4", its
stop, message_stop — decodes to text "4", no tool calls, no dispatch, no
second model call. -/
theorem claim_C3_text_only_witness :
    (∀ e ∈ [StreamEvent.otherEvent,
            StreamEvent.contentBlockStart StartBlock.text,
            StreamEvent.contentBlockDelta (Delta.text "4"),
            StreamEvent.contentBlockStop,
            StreamEvent.otherEvent], isToolUseStart e = false)
    ∧ (joinAll ((decodeStream sampleParse
          [StreamEvent.otherEvent,
           StreamEvent.contentBlockStart StartBlock.text,
           StreamEvent.contentBlockDelta (Delta.text "4"),
           StreamEvent.contentBlockStop,
           StreamEvent.otherEvent]).textParts)
        = joinAll ([StreamEvent.otherEvent,
                    StreamEvent.contentBlockStart StartBlock.text,
                    StreamEvent.contentBlockDelta (Delta.text "4"),
                    StreamEvent.contentBlockStop,
                    StreamEvent.otherEvent].filterMap textFragOf)
      ∧ (decodeStream sampleParse
          [StreamEvent.otherEvent,
           StreamEvent.contentBlockStart StartBlock.text,
           StreamEvent.contentBlockDelta (Delta.text "4"),
           StreamEvent.contentBlockStop,
           StreamEvent.otherEvent]).toolCalls = []
      ∧ (process_query "What is 2+2?"
          [StreamEvent.otherEvent,
           StreamEvent.contentBlockStart StartBlock.text,
           StreamEvent.contentBlockDelta (Delta.text "4"),
           StreamEvent.contentBlockStop,
           StreamEvent.otherEvent] []
          sampleExecutor sampleParse).invocations = []
      ∧ (process_query "What is 2+2?"
          [StreamEvent.otherEvent,
           StreamEvent.contentBlockStart StartBlock.text,
           StreamEvent.contentBlockDelta (Delta.text "4"),
           StreamEvent.contentBlockStop,
           StreamEvent.otherEvent] []
          sampleExecutor sampleParse).secondCalled = false) :=
  ⟨by decide,
   claim_C3_text_only sampleParse "What is 2+2?"
     [StreamEvent.otherEvent,
      StreamEvent.contentBlockStart StartBlock.text,
      StreamEvent.contentBlockDelta (Delta.text "4"),
      StreamEvent.contentBlockStop,
      StreamEvent.otherEvent]
     [] sampleExecutor (by decide)⟩

/-- C4: when the first stream decodes to the two tool calls a then b (in
stream-closure order) and both dispatches succeed, the tool_result
message appended to the log lists the result of a before the result of b;
in general the dispatch loop emits tool_use ids in exactly the order of
the decoded tool calls, never reordered by name or id. -/
theorem claim_C4_result_order (parse : String → Option Json) (q : String)
    (s1 s2 : List StreamEvent) (ex : String → Json → Except String String)
    (a b : ToolCall) (ca cb : String)
    (h1 : (decodeStream parse s1).toolCalls = [a, b])
    (h2 : ex a.name a.input = Except.ok ca)
    (h3 : ex b.name b.input = Except.ok cb) :
    (process_query q s1 s2 ex parse).log =
      [{ role := "user", content := MessageContent.str q },
       { role := "assistant",
         content := MessageContent.blocks (assistantMessageContent (decodeStream parse s1)) },
       { role := "user",
         content := MessageContent.blocks
           [ContentBlock.toolResult { tool_use_id := a.id, content := ca },
            ContentBlock.toolResult { tool_use_id := b.id, content := cb }] }]
    ∧ ∀ (tcs : List ToolCall) (inv : List (String × Json)) (rs : List ToolResultBlock),
        dispatchAll ex tcs = (inv, rs, none) →
        rs.map ToolResultBlock.tool_use_id = tcs.map ToolCall.id := by
  constructor
  · have hdisp : dispatchAll ex (decodeStream parse s1).toolCalls =
        ([(a.name, a.input), (b.name, b.input)],
         [{ tool_use_id := a.id, content := ca }, { tool_use_id := b.id, content := cb }],
         none) := by
      rw [h1]
      simp [dispatchAll, h2, h3]
    have hcont : (assistantMessageContent (decodeStream parse s1)).isEmpty = false := by
      cases hx : (decodeStream parse s1).textParts.isEmpty <;>
        simp [assistantMessageContent, h1, hx]
    have htc : (decodeStream parse s1).toolCalls.isEmpty = false := by simp [h1]
    simp [process_query, hcont, htc, hdisp]
  · exact dispatchAll_order ex

/-- Witness for C4: a stream closing tool calls a then b; the appended
tool_result message lists the result of a first. -/
theorem claim_C4_result_order_witness :
    ((decodeStream sampleParse
        [StreamEvent.contentBlockStart (StartBlock.toolUse "a" "fA"),
         StreamEvent.contentBlockDelta (Delta.inputJson "1"),
         StreamEvent.contentBlockStop,
         StreamEvent.contentBlockStart (StartBlock.toolUse "b" "fB"),
         StreamEvent.contentBlockDelta (Delta.inputJson "2"),
         StreamEvent.contentBlockStop]).toolCalls
      = [{ id := "a", name := "fA", input := Json.num 1 },
         { id := "b", name := "fB", input := Json.num 2 }])
    ∧ (process_query "list my files"
        [StreamEvent.contentBlockStart (StartBlock.toolUse "a" "fA"),
         StreamEvent.contentBlockDelta (Delta.inputJson "1"),
         StreamEvent.contentBlockStop,
         StreamEvent.contentBlockStart (StartBlock.toolUse "b" "fB"),
         StreamEvent.contentBlockDelta (Delta.inputJson "2"),
         StreamEvent.contentBlockStop]
        [] sampleExecutor sampleParse).log =
      [{ role := "user", content := MessageContent.str "list my files" },
       { role := "assistant",
         content := MessageContent.blocks (assistantMessageContent (decodeStream sampleParse
           [StreamEvent.contentBlockStart (StartBlock.toolUse "a" "fA"),
            StreamEvent.contentBlockDelta (Delta.inputJson "1"),
            StreamEvent.contentBlockStop,
            StreamEvent.contentBlockStart (StartBlock.toolUse "b" "fB"),
            StreamEvent.contentBlockDelta (Delta.inputJson "2"),
            StreamEvent.contentBlockStop])) },
       { role := "user",
         content := MessageContent.blocks
           [ContentBlock.toolResult { tool_use_id := "a", content := "fA" },
            ContentBlock.toolResult { tool_use_id := "b", content := "fB" }] }] :=
  ⟨rfl,
   (claim_C4_result_order sampleParse "list my files"
     [StreamEvent.contentBlockStart (StartBlock.toolUse "a" "fA"),
      StreamEvent.contentBlockDelta (Delta.inputJson "1"),
      StreamEvent.contentBlockStop,
      StreamEvent.contentBlockStart (StartBlock.toolUse "b" "fB"),
      StreamEvent.contentBlockDelta (Delta.inputJson "2"),
      StreamEvent.contentBlockStop]
     [] sampleExecutor
     { id := "a", name := "fA", input := Json.num 1 }
     { id := "b", name := "fB", input := Json.num 2 }
     "fA" "fB" rfl rfl rfl).1⟩

/-- C5: when the dispatch loop is aborted by a call_tool error, the error
escapes process_query (so chat_loop reports it), no second model call is
made, the log stops at the assistant message (no tool_result message is
appended), and the chat loop still processes its remaining input lines
after any non-quit line. -/
theorem claim_C5_dispatch_error_aborts_turn (parse : String → Option Json) (q : String)
    (s1 s2 : List StreamEvent) (ex : String → Json → Except String String)
    (inv : List (String × Json)) (rs : List ToolResultBlock) (e : String)
    (streams : String → List StreamEvent × List StreamEvent)
    (line : String) (rest : List String)
    (h : dispatchAll ex (decodeStream parse s1).toolCalls = (inv, rs, some e))
    (hq : ¬ pyLower (pyStrip line) = "quit") :
    (process_query q s1 s2 ex parse).err = some e
    ∧ (process_query q s1 s2 ex parse).secondCalled = false
    ∧ (process_query q s1 s2 ex parse).invocations = inv
    ∧ (process_query q s1 s2 ex parse).log =
        [{ role := "user", content := MessageContent.str q },
         { role := "assistant",
           content := MessageContent.blocks (assistantMessageContent (decodeStream parse s1)) }]
    ∧ chat_loop streams ex parse (line :: rest) =
        process_query (pyStrip line) (streams (pyStrip line)).1 (streams (pyStrip line)).2 ex parse
          :: chat_loop streams ex parse rest := by
  have htcne : (decodeStream parse s1).toolCalls ≠ [] := by
    intro h0
    rw [h0] at h
    unfold dispatchAll at h
    injection h with h1 h23
    injection h23 with h2 h3
    exact Option.noConfusion h3
  have htc : (decodeStream parse s1).toolCalls.isEmpty = false := by
    cases hx : (decodeStream parse s1).toolCalls with
    | nil => exact absurd hx htcne
    | cons t ts => rfl
  have hcont : (assistantMessageContent (decodeStream parse s1)).isEmpty = false := by
    cases hx : (decodeStream parse s1).toolCalls with
    | nil => exact absurd hx htcne
    | cons t ts =>
      cases hy : (decodeStream parse s1).textParts.isEmpty <;>
        simp [assistantMessageContent, hx, hy]
  refine ⟨?_, ?_, ?_, ?_, ?_⟩
  · simp [process_query, hcont, htc, h]
  · simp [process_query, hcont, htc, h]
  · simp [process_query, hcont, htc, h]
  · simp [process_query, hcont, htc, h]
  · simp [chat_loop, hq]

/-- Witness for C5: end-to-end scenario 3 — call_tool raises; the error
is surfaced, there is no second model call, and the loop goes on. -/
theorem claim_C5_dispatch_error_aborts_turn_witness :
    dispatchAll failingExecutor
        (decodeStream sampleParse
          [StreamEvent.contentBlockStart (StartBlock.toolUse "a" "get_forecast"),
           StreamEvent.contentBlockDelta (Delta.inputJson "1"),
           StreamEvent.contentBlockStop]).toolCalls
      = ([("get_forecast", Json.num 1)], [], some "remote error")
    ∧ ¬ pyLower (pyStrip "hello") = "quit"
    ∧ ((process_query "w"
          [StreamEvent.contentBlockStart (StartBlock.toolUse "a" "get_forecast"),
           StreamEvent.contentBlockDelta (Delta.inputJson "1"),
           StreamEvent.contentBlockStop]
          [] failingExecutor sampleParse).err = some "remote error"
      ∧ (process_query "w"
          [StreamEvent.contentBlockStart (StartBlock.toolUse "a" "get_forecast"),
           StreamEvent.contentBlockDelta (Delta.inputJson "1"),
           StreamEvent.contentBlockStop]
          [] failingExecutor sampleParse).secondCalled = false
      ∧ (process_query "w"
          [StreamEvent.contentBlockStart (StartBlock.toolUse "a" "get_forecast"),
           StreamEvent.contentBlockDelta (Delta.inputJson "1"),
           StreamEvent.contentBlockStop]
          [] failingExecutor sampleParse).invocations = [("get_forecast", Json.num 1)]
      ∧ (process_query "w"
          [StreamEvent.contentBlockStart (StartBlock.toolUse "a" "get_forecast"),
           StreamEvent.contentBlockDelta (Delta.inputJson "1"),
           StreamEvent.contentBlockStop]
          [] failingExecutor sampleParse).log =
          [{ role := "user", content := MessageContent.str "w" },
           { role := "assistant",
             content := MessageContent.blocks (assistantMessageContent (decodeStream sampleParse
               [StreamEvent.contentBlockStart (StartBlock.toolUse "a" "get_forecast"),
                StreamEvent.contentBlockDelta (Delta.inputJson "1"),
                StreamEvent.contentBlockStop])) }]
      ∧ chat_loop (fun _ => ([], [])) failingExecutor sampleParse ["hello"] =
          process_query (pyStrip "hello")
            ((fun (_ : String) => (([] : List StreamEvent), ([] : List StreamEvent))) (pyStrip "hello")).1
            ((fun (_ : String) => (([] : List StreamEvent), ([] : List StreamEvent))) (pyStrip "hello")).2
            failingExecutor sampleParse
            :: chat_loop (fun _ => ([], [])) failingExecutor sampleParse []) :=
  ⟨rfl, by decide,
   claim_C5_dispatch_error_aborts_turn sampleParse "w"
     [StreamEvent.contentBlockStart (StartBlock.toolUse "a" "get_forecast"),
      StreamEvent.contentBlockDelta (Delta.inputJson "1"),
      StreamEvent.contentBlockStop]
     [] failingExecutor [("get_forecast", Json.num 1)] [] "remote error"
     (fun _ => ([], [])) "hello" [] rfl (by decide)⟩

/-- C6: the follow-up stream only surfaces the text channel — the whole
outcome of process_query depends on the second stream only through its
text deltas, so tool_use blocks appearing there are never dispatched: the
invocation trace is the same for every second stream. -/
theorem claim_C6_second_stream_text_only (parse : String → Option Json) (q : String)
    (s1 s2 s2' : List StreamEvent) (ex : String → Json → Except String String)
    (h : s2.filterMap textFragOf = s2'.filterMap textFragOf) :
    process_query q s1 s2 ex parse = process_query q s1 s2' ex parse
    ∧ ∀ s3 : List StreamEvent,
        (process_query q s1 s3 ex parse).invocations
          = (process_query q s1 s2 ex parse).invocations := by
  constructor
  · unfold process_query
    rw [show secondStreamText s2 = secondStreamText s2' by simp [secondStreamText, h]]
  · intro s3
    rw [process_query_invocations, process_query_invocations]

/-- Witness for C6: a second stream carrying a complete tool-use block
next to the text delta "done" produces exactly the same outcome as the
second stream with only the text delta. -/
theorem claim_C6_second_stream_text_only_witness :
    ([StreamEvent.contentBlockStart (StartBlock.toolUse "x" "f"),
      StreamEvent.contentBlockDelta (Delta.inputJson "1"),
      StreamEvent.contentBlockStop,
      StreamEvent.contentBlockDelta (Delta.text "done")].filterMap textFragOf
      = [StreamEvent.contentBlockDelta (Delta.text "done")].filterMap textFragOf)
    ∧ process_query "w"
        [StreamEvent.contentBlockStart (StartBlock.toolUse "a" "get_forecast"),
         StreamEvent.contentBlockDelta (Delta.inputJson "1"),
         StreamEvent.contentBlockStop]
        [StreamEvent.contentBlockStart (StartBlock.toolUse "x" "f"),
         StreamEvent.contentBlockDelta (Delta.inputJson "1"),
         StreamEvent.contentBlockStop,
         StreamEvent.contentBlockDelta (Delta.text "done")]
        sampleExecutor sampleParse
      = process_query "w"
          [StreamEvent.contentBlockStart (StartBlock.toolUse "a" "get_forecast"),
           StreamEvent.contentBlockDelta (Delta.inputJson "1"),
           StreamEvent.contentBlockStop]
          [StreamEvent.contentBlockDelta (Delta.text "done")]
          sampleExecutor sampleParse :=
  ⟨by decide,
   (claim_C6_second_stream_text_only sampleParse "w"
     [StreamEvent.contentBlockStart (StartBlock.toolUse "a" "get_forecast"),
      StreamEvent.contentBlockDelta (Delta.inputJson "1"),
      StreamEvent.contentBlockStop]
     [StreamEvent.contentBlockStart (StartBlock.toolUse "x" "f"),
      StreamEvent.contentBlockDelta (Delta.inputJson "1"),
      StreamEvent.contentBlockStop,
      StreamEvent.contentBlockDelta (Delta.text "done")]
     [StreamEvent.contentBlockDelta (Delta.text "done")]
     sampleExecutor (by decide)).1⟩

/-- C7 counterexample: a stream whose only chunk is a text delta carrying
the empty string decodes to empty text, yet the assistant message does
contain a zero-length Text block — the source checks whether the
text_parts list is non-empty, not whether the joined text is, so the
claim fails as stated. -/
theorem claim_C7_counterexample :
    joinAll ((decodeStream sampleParse
        [StreamEvent.contentBlockDelta (Delta.text "")]).textParts) = ""
    ∧ (process_query "q" [StreamEvent.contentBlockDelta (Delta.text "")] []
        sampleExecutor sampleParse).log
      = [{ role := "user", content := MessageContent.str "q" },
         { role := "assistant", content := MessageContent.blocks [ContentBlock.text ""] }] :=
  ⟨rfl, rfl⟩

/-- A chunk that is not a text delta carries no text fragment. -/
theorem textFragOf_eq_none (e : StreamEvent) (h : isTextDelta e = false) :
    textFragOf e = none := by
  cases e with
  | contentBlockDelta d =>
    cases d with
    | text t => simp [isTextDelta] at h
    | inputJson j => rfl
  | contentBlockStart b => rfl
  | contentBlockStop => rfl
  | otherEvent => rfl

/-- C7 (amended): for every stream containing no text-delta chunk — in
particular a stream with only tool-use blocks — text_parts stays empty
and the reconstructed assistant content contains no Text block at all.
(As stated over streams whose joined text is empty the claim is false:
a stream whose text deltas all carry the empty string produces a
zero-length Text block, see the counterexample.) -/
theorem claim_C7_no_text_block (parse : String → Option Json) (evs : List StreamEvent)
    (h : ∀ e ∈ evs, isTextDelta e = false) :
    (decodeStream parse evs).textParts = []
    ∧ ∀ t : String, ContentBlock.text t ∉ assistantMessageContent (decodeStream parse evs) := by
  have htp : (decodeStream parse evs).textParts = [] := by
    unfold decodeStream
    rw [foldl_textParts]
    have : evs.filterMap textFragOf = [] := by
      rw [List.filterMap_eq_nil_iff]
      exact fun e he => textFragOf_eq_none e (h e he)
    rw [this]
    rfl
  refine ⟨htp, fun t => ?_⟩
  simp [assistantMessageContent, htp]

/-- Witness for C7 (amended): a stream consisting of one tool-use block
and no text delta yields no Text block in the assistant content. -/
theorem claim_C7_no_text_block_witness :
    (∀ e ∈ [StreamEvent.contentBlockStart (StartBlock.toolUse "a" "get_forecast"),
            StreamEvent.contentBlockDelta (Delta.inputJson "1"),
            StreamEvent.contentBlockStop], isTextDelta e = false)
    ∧ ((decodeStream sampleParse
          [StreamEvent.contentBlockStart (StartBlock.toolUse "a" "get_forecast"),
           StreamEvent.contentBlockDelta (Delta.inputJson "1"),
           StreamEvent.contentBlockStop]).textParts = []
      ∧ ∀ t : String, ContentBlock.text t ∉ assistantMessageContent (decodeStream sampleParse
          [StreamEvent.contentBlockStart (StartBlock.toolUse "a" "get_forecast"),
           StreamEvent.contentBlockDelta (Delta.inputJson "1"),
           StreamEvent.contentBlockStop])) :=
  ⟨by decide,
   claim_C7_no_text_block sampleParse
     [StreamEvent.contentBlockStart (StartBlock.toolUse "a" "get_forecast"),
      StreamEvent.contentBlockDelta (Delta.inputJson "1"),
      StreamEvent.contentBlockStop]
     (by decide)⟩

/-- C8: a content_block_start for a tool_use block arriving while a slot
is still open deterministically replaces it with the fresh slot
{id, name, empty buffer}; the rest of the run proceeds exactly as if no
slot had been open, so the discarded slot contributes nothing to the
decoded tool-call sequence. -/
theorem claim_C8_start_discards_open_slot (parse : String → Option Json)
    (s : DecodeState) (old : OpenToolCall) (id name : String) (evs : List StreamEvent) :
    step parse { s with current := some old }
        (StreamEvent.contentBlockStart (StartBlock.toolUse id name))
      = { s with current := some { id := id, name := name, inputBuf := "" } }
    ∧ List.foldl (step parse) { s with current := some old }
        (StreamEvent.contentBlockStart (StartBlock.toolUse id name) :: evs)
      = List.foldl (step parse) { s with current := none }
          (StreamEvent.contentBlockStart (StartBlock.toolUse id name) :: evs) := by
  obtain ⟨tp, cur, tcs, w⟩ := s
  exact ⟨rfl, rfl⟩

/-- C9: an input_json delta or a stop with no open slot is silently
ignored — the state (text, slot, tool calls, warnings) is unchanged and
the step function is total, so the decoder never fails on such
protocol-violating streams. -/
theorem claim_C9_orphan_events_ignored (parse : String → Option Json)
    (s : DecodeState) (frag : String) (h : s.current = none) :
    step parse s (StreamEvent.contentBlockDelta (Delta.inputJson frag)) = s
    ∧ step parse s StreamEvent.contentBlockStop = s := by
  obtain ⟨tp, cur, tcs, w⟩ := s
  simp only [DecodeState.current] at h
  subst h
  exact ⟨rfl, rfl⟩

/-- Witness for C9: from the initial state (no open slot), an orphan
fragment and an orphan stop both leave the state untouched. -/
theorem claim_C9_orphan_events_ignored_witness :
    initDecodeState.current = none
    ∧ (step sampleParse initDecodeState (StreamEvent.contentBlockDelta (Delta.inputJson "frag"))
          = initDecodeState
      ∧ step sampleParse initDecodeState StreamEvent.contentBlockStop = initDecodeState) :=
  ⟨rfl, claim_C9_orphan_events_ignored sampleParse initDecodeState "frag" rfl⟩

/-- C10: immediately after any content_block_stop the slot is closed —
whether the buffer parsed or not — so a partial-JSON fragment arriving
right after a stop is dropped and can never be absorbed into a closed or
failed tool call. -/
theorem claim_C10_stop_closes_slot (parse : String → Option Json)
    (s : DecodeState) (frag : String) :
    (step parse s StreamEvent.contentBlockStop).current = none
    ∧ step parse (step parse s StreamEvent.contentBlockStop)
        (StreamEvent.contentBlockDelta (Delta.inputJson frag))
      = step parse s StreamEvent.contentBlockStop := by
  obtain ⟨tp, cur, tcs, w⟩ := s
  cases cur with
  | none => exact ⟨rfl, rfl⟩
  | some c => cases hp : parse c.inputBuf <;> constructor <;> simp [step, hp]
